import Mathlib

/-!
Verification of the HDPM (Hierarchical Dual-Pathway Memory) core:
a shallow embedding of `hdpm/core_structures.py` and
`hdpm/memory_processing.py`, followed by theorems settling the
specification claims about retrieval, store integrity, serialization
round-trips and the reflection pipeline.

Modelling conventions:
* Python strings are Lean `String`s; character-level operations work on
  `String.data` (`List Char`).  Python's `\w` and `\s` character classes
  are modelled over ASCII (`Char.isAlphanum`, underscore, and the six
  ASCII whitespace characters recognised by `re`).
* `datetime` timestamps are modelled as `Int` (seconds); `datetime.now()`
  becomes an explicit `now : Int` parameter and `timedelta(seconds = k)`
  is plain integer subtraction.
* Python `dict`s are association lists `List (String × α)` with
  insertion-order iteration, first-match lookup and position-preserving
  upsert — exactly the observable behaviour of a CPython `dict`.
* `uuid4()`-generated fresh identifiers become explicit parameters (or,
  in `atomize`, index-derived ids): the model only relies on what the
  code relies on, namely that the ids exist.
* Python's stable `list.sort` / `sorted` is `List.insertionSort`, which
  is the (unique) stable sort for a total preorder.
* The global `random` generator is threaded explicitly as a `Nat` that
  selects the index drawn by `random.choice`.
-/

/-! ### Character classes and normalization (`re.sub(r'[^\w\s-]', '', s.lower()).replace('-', ' ').split()`) -/

/-- Python regex `\w` over ASCII: letters, digits and underscore. -/
def isWordChar (c : Char) : Bool := c.isAlphanum || c = '_'

/-- Python regex `\s` over ASCII: space, tab, newline, carriage return,
vertical tab, form feed. -/
def isSpaceChar (c : Char) : Bool :=
  c = ' ' || c = '\t' || c = '\n' || c = '\r' || c = '\x0b' || c = '\x0c'

/-- `s.lower()` followed by `re.sub(r'[^\w\s-]', '', ·)` followed by
`.replace('-', ' ')`, at character level. -/
def cleanChars (s : List Char) : List Char :=
  ((s.map Char.toLower).filter (fun c => isWordChar c || isSpaceChar c || c = '-')).map
    (fun c => if c = '-' then ' ' else c)

/-- Python `str.split()` with no separator: split on runs of whitespace,
dropping empty fragments.  The accumulator holds the current word,
reversed. -/
def splitWsGo : List Char → List Char → List (List Char)
  | [], acc => if acc.isEmpty then [] else [acc.reverse]
  | c :: cs, acc =>
    if isSpaceChar c then
      if acc.isEmpty then splitWsGo cs [] else acc.reverse :: splitWsGo cs []
    else splitWsGo cs (c :: acc)

def splitWs (s : List Char) : List (List Char) := splitWsGo s []

/-- The term list of `set(re.sub(r'[^\w\s-]', '', s.lower()).replace('-', ' ').split())`:
normalized words with duplicates collapsed (a Python `set`, represented
as a duplicate-free list; only its membership is ever used). -/
def termSet (s : List Char) : List (List Char) := (splitWs (cleanChars s)).dedup

/-- `len(qset & iset)` for two Python sets represented as duplicate-free
lists: the number of query terms also occurring among the insight terms. -/
def overlapScore (q i : List (List Char)) : Nat :=
  (q.filter (fun t => decide (t ∈ i))).length

/-! ### Other Python string operations used by the reflection pipeline -/

/-- `s.lower()`. -/
def strLower (s : String) : String := String.mk (s.data.map Char.toLower)

/-- `s[:n]`. -/
def strTake (n : Nat) (s : String) : String := String.mk (s.data.take n)

/-- Python substring test `needle in hay`. -/
def strContains (hay needle : String) : Bool :=
  hay.data.tails.any (fun t => needle.data.isPrefixOf t)

/-- Python `s.split(" ")` (single-character separator: consecutive
separators yield empty fragments, `"".split(" ") == [""]`). -/
def splitOnSpace : List Char → List (List Char)
  | [] => [[]]
  | c :: cs =>
    if c = ' ' then [] :: splitOnSpace cs
    else
      match splitOnSpace cs with
      | [] => [[c]]
      | w :: ws => (c :: w) :: ws

/-! ### Entity model (`core_structures.py`) -/

/-- `AtomicEvidenceCard`: one atomic observation/action. -/
structure AtomicEvidenceCard where
  id : String
  content : String
  agent_type : String
  timestamp : Int
  deriving DecidableEq, Repr

/-- `PolicyPathway`: an ordered workflow, referencing evidence by id. -/
structure PolicyPathway where
  id : String
  evidence_card_ids : List String
  linked_insight_id : Option String
  deriving DecidableEq, Repr

/-- `Insight`: distilled knowledge with a back-reference to its source
pathway. -/
structure Insight where
  id : String
  content : String
  source_pathway_id : String
  deriving DecidableEq, Repr

/-! ### Association lists modelling CPython dicts -/

/-- First-match lookup, `d.get(k)`. -/
def lookupA {α : Type} (k : String) : List (String × α) → Option α
  | [] => none
  | (k', v) :: rest => if k' = k then some v else lookupA k rest

/-- `d[k] = v`: replace in place if the key exists (keeping its
position, as CPython dicts do), else append. -/
def upsert {α : Type} (k : String) (v : α) : List (String × α) → List (String × α)
  | [] => [(k, v)]
  | (k', v') :: rest => if k' = k then (k, v) :: rest else (k', v') :: upsert k v rest

/-- `k in d`. -/
def containsKey {α : Type} (k : String) (l : List (String × α)) : Bool :=
  (lookupA k l).isSome

/-- Mutate the value stored under `k` (first occurrence), leaving the
rest of the dict untouched; identity if `k` is absent. -/
def updateAt {α : Type} (k : String) (f : α → α) : List (String × α) → List (String × α)
  | [] => []
  | (k', v) :: rest => if k' = k then (k', f v) :: rest else (k', v) :: updateAt k f rest

/-! ### MemoryStore -/

/-- Timestamp order used by every `sorted(cards, key=lambda c: c.timestamp)`. -/
def tsLE : AtomicEvidenceCard → AtomicEvidenceCard → Prop :=
  fun a b => a.timestamp ≤ b.timestamp

instance : DecidableRel tsLE := fun a b => Int.decLe a.timestamp b.timestamp

instance : IsTotal AtomicEvidenceCard tsLE :=
  ⟨fun a b => Int.le_total a.timestamp b.timestamp⟩

instance : IsTrans AtomicEvidenceCard tsLE :=
  ⟨fun _ _ _ hab hbc => le_trans hab hbc⟩

/-- `MemoryStore`: three id-keyed mappings. -/
structure MemoryStore where
  insights : List (String × Insight)
  pathways : List (String × PolicyPathway)
  evidence : List (String × AtomicEvidenceCard)
  deriving DecidableEq, Repr

def MemoryStore.empty : MemoryStore := ⟨[], [], []⟩

/-- `add_evidence_card`: `self.evidence[card.id] = card`. -/
def MemoryStore.add_evidence_card (store : MemoryStore) (card : AtomicEvidenceCard) :
    MemoryStore :=
  { store with evidence := upsert card.id card store.evidence }

/-- `add_policy_pathway`: `self.pathways[pathway.id] = pathway`. -/
def MemoryStore.add_policy_pathway (store : MemoryStore) (pathway : PolicyPathway) :
    MemoryStore :=
  { store with pathways := upsert pathway.id pathway store.pathways }

/-- `add_insight`: store the insight under its id, then — if its source
pathway is present — set that pathway's `linked_insight_id`; otherwise
only a warning is printed and the store is left as is. -/
def MemoryStore.add_insight (store : MemoryStore) (insight : Insight) : MemoryStore :=
  let store' := { store with insights := upsert insight.id insight store.insights }
  if containsKey insight.source_pathway_id store'.pathways then
    { store' with
      pathways :=
        updateAt insight.source_pathway_id
          (fun pw => { pw with linked_insight_id := some insight.id }) store'.pathways }
  else
    store'

def MemoryStore.get_evidence_card (store : MemoryStore) (card_id : String) :
    Option AtomicEvidenceCard :=
  lookupA card_id store.evidence

def MemoryStore.get_policy_pathway (store : MemoryStore) (pathway_id : String) :
    Option PolicyPathway :=
  lookupA pathway_id store.pathways

def MemoryStore.get_insight (store : MemoryStore) (insight_id : String) : Option Insight :=
  lookupA insight_id store.insights

/-- `get_evidence_cards_for_pathway`: `[]` if the pathway is unknown,
otherwise the referenced cards that exist (missing ids are skipped with
a warning), sorted ascending by timestamp. -/
def MemoryStore.get_evidence_cards_for_pathway (store : MemoryStore) (pathway_id : String) :
    List AtomicEvidenceCard :=
  match store.get_policy_pathway pathway_id with
  | none => []
  | some pathway =>
    List.insertionSort tsLE (pathway.evidence_card_ids.filterMap store.get_evidence_card)

/-! ### Serialization (`to_dict` / `from_dict`)

Each entity's `to_dict`/`from_dict` pair copies its fields verbatim
(timestamps round-trip through `isoformat`/`fromisoformat`), so the
serialized form of a store is modelled by the same three association
lists of fully-reconstructible entities. -/

structure MemoryStoreData where
  insights : List (String × Insight)
  pathways : List (String × PolicyPathway)
  evidence : List (String × AtomicEvidenceCard)
  deriving DecidableEq, Repr

def MemoryStore.to_dict (store : MemoryStore) : MemoryStoreData :=
  ⟨store.insights, store.pathways, store.evidence⟩

/-- `from_dict`: a fresh store, replaying insertion in the order
evidence → pathways → insights (each `add_*` keyed by the entity's own
id field, as the Python loops do). -/
def MemoryStore.from_dict (data : MemoryStoreData) : MemoryStore :=
  let s0 := MemoryStore.empty
  let s1 := data.evidence.foldl (fun s p => s.add_evidence_card p.2) s0
  let s2 := data.pathways.foldl (fun s p => s.add_policy_pathway p.2) s1
  data.insights.foldl (fun s p => s.add_insight p.2) s2

/-! ### HDPM retrieval (`_retrieve_relevant_items_from_store`) -/

/-- Score-descending order used by
`scored_insights.sort(key=lambda x: x[0], reverse=True)`. -/
def scoreGE : (Nat × Insight) → (Nat × Insight) → Prop := fun a b => b.1 ≤ a.1

instance : DecidableRel scoreGE := fun a b => Nat.decLe b.1 a.1

instance : IsTotal (Nat × Insight) scoreGE := ⟨fun a b => Nat.le_total b.1 a.1⟩

instance : IsTrans (Nat × Insight) scoreGE := ⟨fun _ _ _ hab hbc => Nat.le_trans hbc hab⟩

/-- The insight-selection phase of `_retrieve_relevant_items_from_store`
(lines 209–226): normalize the query, score every insight in iteration
order by term overlap, keep positive scores, stable-sort by score
descending, take the first `top_k`.  Only ever entered with
`top_k > 0`. -/
def topInsightsOf (query : String) (insights : List (String × Insight)) (topK : Int) :
    List Insight :=
  let queryTerms := termSet query.data
  let scored := insights.filterMap (fun p =>
    let insightTerms := termSet p.2.content.data
    let score := overlapScore queryTerms insightTerms
    if score > 0 then some (score, p.2) else none)
  let sorted := List.insertionSort scoreGE scored
  (sorted.take topK.toNat).map (fun sp => sp.2)

/-- The pathway-resolution loop (lines 228–237): keep only insights
whose source pathway exists, collecting the pathway alongside. -/
def resolveTop (store : MemoryStore) : List Insight → List Insight × List PolicyPathway
  | [] => ([], [])
  | insight :: rest =>
    let tail := resolveTop store rest
    match store.get_policy_pathway insight.source_pathway_id with
    | some pathway => (insight :: tail.1, pathway :: tail.2)
    | none => tail

/-- `HDPM._retrieve_relevant_items_from_store`. -/
def retrieveRelevantItems (query : String) (store : MemoryStore) (topK : Int) :
    List Insight × List PolicyPathway :=
  if topK ≤ 0 then ([], [])
  else resolveTop store (topInsightsOf query store.insights topK)

/-! ### Reference (specification-side) retrieval algorithm

The following definitions follow the wording of the specification
(§4.2, steps 2–4) rather than the source: term sets are `Finset`s, the
score is the cardinality of the intersection of the two term sets, and
the normalization is a single left-to-right pass keeping word
characters and whitespace and mapping hyphens to spaces. -/

/-- Spec §4.2 step 2 normalization: lowercase, strip every character
other than word characters, whitespace and hyphen, treating hyphens as
word separators. -/
def specClean (s : List Char) : List Char :=
  (s.map Char.toLower).filterMap (fun c =>
    if c = '-' then some ' '
    else if isWordChar c || isSpaceChar c then some c
    else none)

/-- Spec: the set of terms of a normalized text. -/
def specTermFinset (s : List Char) : Finset (List Char) :=
  (splitWs (specClean s)).toFinset

/-- Spec §4.2 steps 2–5 (through "take the top `top_k`"): score by
intersection cardinality, discard zero scores, stable-sort descending,
take `top_k`. -/
def specTopInsights (query : String) (insights : List (String × Insight)) (topK : Int) :
    List Insight :=
  let queryTerms := specTermFinset query.data
  let scored := insights.filterMap (fun p =>
    let score := (queryTerms ∩ specTermFinset p.2.content.data).card
    if score > 0 then some (score, p.2) else none)
  let sorted := List.insertionSort scoreGE scored
  (sorted.take topK.toNat).map (fun sp => sp.2)

/-! ### Reflection pipeline (`memory_processing.py`) -/

/-- Result of applying `datetime.fromisoformat` to a supplied timestamp
string: either the parsed time or a `ValueError` (caught by `atomize`'s
`except` branch). -/
inductive TsField where
  | parseable (t : Int)
  | unparseable
  deriving DecidableEq, Repr

/-- One trajectory step: a dictionary with optional `action_content`,
`agent_type` and `timestamp` keys.  A missing key — or, for `timestamp`,
an empty (falsy) string — is `none`. -/
structure TrajStep where
  action_content : Option String
  agent_type : Option String
  timestamp : Option TsField
  deriving DecidableEq, Repr

/-- The body of `atomize`'s loop for index `i` of a trajectory of length
`n`.  The card id models the fresh `uuid4` id.  A step whose timestamp
string fails to parse raises inside the `try`, so the `except` branch
emits the sentinel card with role `"SystemError"` and a truncated dump
of the step; in both fallback cases the timestamp is
`now - (n - i)` seconds. -/
def atomizeStep (n : Nat) (now : Int) (i : Nat) (step : TrajStep) : AtomicEvidenceCard :=
  match step.timestamp with
  | some (.parseable t) =>
    { id := "aec_" ++ toString i
      content := step.action_content.getD ("Step " ++ toString (i + 1) ++ " content missing")
      agent_type := step.agent_type.getD "UnknownAgent"
      timestamp := t }
  | none =>
    { id := "aec_" ++ toString i
      content := step.action_content.getD ("Step " ++ toString (i + 1) ++ " content missing")
      agent_type := step.agent_type.getD "UnknownAgent"
      timestamp := now - ((n : Int) - (i : Int)) }
  | some .unparseable =>
    { id := "aec_" ++ toString i
      content := "Error parsing event: " ++ strTake 100 (reprStr step)
      agent_type := "SystemError"
      timestamp := now - ((n : Int) - (i : Int)) }

/-- `ReflectAgent.atomize`: one card per step, then a defensive stable
sort by timestamp. -/
def atomize (now : Int) (trajectory : List TrajStep) : List AtomicEvidenceCard :=
  let evidence_cards :=
    trajectory.enum.map (fun p => atomizeStep trajectory.length now p.1 p.2)
  List.insertionSort tsLE evidence_cards

/-- `ReflectAgent.serialize`: build a pathway whose id list is the
timestamp-sorted card ids (`freshPathwayId` models the `uuid4` pathway
id; an empty card list yields an empty pathway). -/
def serialize (freshPathwayId : String) (evidence_cards : List AtomicEvidenceCard) :
    PolicyPathway :=
  if evidence_cards.isEmpty then
    { id := freshPathwayId, evidence_card_ids := [], linked_insight_id := none }
  else
    { id := freshPathwayId
      evidence_card_ids := (List.insertionSort tsLE evidence_cards).map (fun c => c.id)
      linked_insight_id := none }

/-- Models Python `list(set(xs))`: the distinct elements in a
deterministic (per-process hash) order; only its first element is ever
consumed. -/
def pySetToList (l : List String) : List String := l.dedup

/-- `ReflectAgent._distill_insight_content_simple_keywords`, a pure
function of the pathway, the store and the outcome sign. -/
def distillKeywordContent (pathway : PolicyPathway) (memory_store : MemoryStore)
    (result : Int) : String :=
  let pathway_cards := memory_store.get_evidence_cards_for_pathway pathway.id
  if pathway_cards.isEmpty then
    "No evidence cards found for this pathway to distill insight."
  else
    let successK := pathway_cards.filterMap (fun card =>
      if strContains (strLower card.content) "success" ||
          strContains (strLower card.content) "good" ||
          strContains (strLower card.content) "resolved" then
        some card.content
      else none)
    let failureK := pathway_cards.filterMap (fun card =>
      if strContains (strLower card.content) "fail" ||
          strContains (strLower card.content) "error" ||
          strContains (strLower card.content) "issue" then
        some card.content
      else none)
    let toolK := pathway_cards.filterMap (fun card =>
      if card.agent_type = "Assistant" then
        let parts := splitOnSpace card.content.data
        if parts.length > 1 ∧
            (strContains (strLower (String.mk (parts.headD []))) "tool" ||
              strContains (strLower (String.mk (parts.headD []))) "used") then
          some (String.mk (parts.getD 1 []))
        else none
      else none)
    let criticK := pathway_cards.filterMap (fun card =>
      if card.agent_type = "Critic" ∧
          (strContains (strLower card.content) "warning" ||
            strContains (strLower card.content) "problem" ||
            strContains (strLower card.content) "bad") then
        some card.content
      else none)
    let outcome_prefix := if result = 1 then "Success Principle: " else "Failure Trap: "
    let planner_card_content :=
      match pathway_cards.find? (fun card => card.agent_type = "Planner") with
      | some first_planner_card => "Context: " ++ first_planner_card.content ++ ". "
      | none => ""
    let t1 := outcome_prefix ++ planner_card_content
    let t2 :=
      if result = 1 ∧ ¬successK.isEmpty then
        t1 ++ "Key success factors: " ++ successK.headD "" ++ ". "
      else if result = -1 ∧ ¬failureK.isEmpty then
        t1 ++ "Key failure points: " ++ failureK.headD "" ++ ". "
      else t1
    let t3 :=
      if ¬toolK.isEmpty then
        t2 ++ "Tools of note: " ++ (pySetToList toolK).headD "" ++ ". "
      else t2
    let t4 :=
      if result = -1 ∧ ¬criticK.isEmpty then
        t3 ++ "Critical feedback: " ++ criticK.headD "" ++ ". "
      else t3
    let initial_meaningful_length := outcome_prefix.length + planner_card_content.length
    let t5 :=
      if t4.length ≤ initial_meaningful_length + 5 then
        if pathway_cards.isEmpty then
          t4 ++ "General pathway recorded (no cards)."
        else if successK.isEmpty ∧ failureK.isEmpty ∧ toolK.isEmpty ∧ criticK.isEmpty then
          t4 ++ "General observation from path. First step: " ++
            strTake 50 (pathway_cards.headD ⟨"", "", "", 0⟩).content ++ "..."
        else
          t4 ++ "Summary based on " ++ toString pathway_cards.length ++ " steps."
      else t4
    strTake 300 t5

/-- `ReflectAgent._distill_insight_content_random_choice`; `rng` is the
state of the module-level `random` generator, modelled as the index it
would draw (`random.choice` picks `cards[rng % len(cards)]`). -/
def distillRandomContent (pathway : PolicyPathway) (memory_store : MemoryStore)
    (result : Int) (rng : Nat) : String :=
  let pathway_cards := memory_store.get_evidence_cards_for_pathway pathway.id
  if pathway_cards.isEmpty then
    "No cards in pathway to distill insight from."
  else
    let chosen_card := pathway_cards.getD (rng % pathway_cards.length) ⟨"", "", "", 0⟩
    let outcome_prefix :=
      if result = 1 then "Success Principle (random pick): "
      else "Failure Trap (random pick): "
    outcome_prefix ++ strTake 150 chosen_card.content

/-- `ReflectAgent.distill`: dispatch on the simulation mode chosen at
construction time; `rng` threads the ambient random state, which only
the `"random_choice"` branch consults.  (In the source the diagnostic
for an unrecognized mode wraps the mode name in single quotes.) -/
def distill (llm_simulation_mode : String) (freshInsightId : String)
    (policy_pathway : PolicyPathway) (memory_store : MemoryStore) (result : Int)
    (rng : Nat) : Insight :=
  let content :=
    if llm_simulation_mode = "simple_keywords" then
      distillKeywordContent policy_pathway memory_store result
    else if llm_simulation_mode = "random_choice" then
      distillRandomContent policy_pathway memory_store result rng
    else
      "Distillation mode " ++ llm_simulation_mode ++
        " not recognized. Default insight generated."
  { id := freshInsightId, content := content, source_pathway_id := policy_pathway.id }

/-- `HDPM`: one positive and one negative store. -/
structure HDPM where
  positive_memory : MemoryStore
  negative_memory : MemoryStore
  deriving DecidableEq, Repr

/-- `ReflectAgent.update_memory`: atomize, serialize, route by outcome
sign, add evidence then pathway then insight; an empty trajectory (or an
empty atomization, which cannot actually occur) short-circuits to
`(None, None, [])` with the HDPM untouched. -/
def update_memory (llm_simulation_mode : String) (now : Int)
    (freshPathwayId freshInsightId : String) (rng : Nat) (trajectory : List TrajStep)
    (result : Int) (hdpm_instance : HDPM) :
    (Option Insight × Option PolicyPathway × List AtomicEvidenceCard) × HDPM :=
  if trajectory.isEmpty then ((none, none, []), hdpm_instance)
  else
    let evidence_cards := atomize now trajectory
    if evidence_cards.isEmpty then ((none, none, []), hdpm_instance)
    else
      let policy_pathway := serialize freshPathwayId evidence_cards
      let target0 :=
        if result = 1 then hdpm_instance.positive_memory else hdpm_instance.negative_memory
      let target1 := evidence_cards.foldl MemoryStore.add_evidence_card target0
      let target2 := target1.add_policy_pathway policy_pathway
      let insight :=
        distill llm_simulation_mode freshInsightId policy_pathway target2 result rng
      let target3 := target2.add_insight insight
      let hdpm' :=
        if result = 1 then { hdpm_instance with positive_memory := target3 }
        else { hdpm_instance with negative_memory := target3 }
      ((some insight, some policy_pathway, evidence_cards), hdpm')

/-! ### Auxiliary definitions for the round-trip analysis -/

/-- Serialize then deserialize a store. -/
def roundTrip (store : MemoryStore) : MemoryStore :=
  MemoryStore.from_dict store.to_dict

/-- The id of the last insight in iteration order whose
`source_pathway_id` is `pid` — the insight whose replayed `add_insight`
is the final writer of that pathway's link during deserialization. -/
def lastRefId (pid : String) : List (String × Insight) → Option String
  | [] => none
  | p :: rest =>
    match lastRefId pid rest with
    | some x => some x
    | none => if p.2.source_pathway_id = pid then some p.2.id else none

/-- A dict of entities is well keyed when every entry is stored under
its entity's own id and keys are distinct — true of every dict the
Python code ever builds, since all writes are `d[entity.id] = entity`. -/
def goodKeys {α : Type} (key : α → String) (l : List (String × α)) : Prop :=
  (∀ p ∈ l, p.1 = key p.2) ∧ (l.map Prod.fst).Nodup

/-- A store is well formed when its three dicts are well keyed. -/
def MemoryStore.WF (store : MemoryStore) : Prop :=
  goodKeys (fun c => c.id) store.evidence ∧
  goodKeys (fun pw => pw.id) store.pathways ∧
  goodKeys (fun i => i.id) store.insights

instance {α : Type} (key : α → String) (l : List (String × α)) :
    Decidable (goodKeys key l) := by
  unfold goodKeys
  infer_instance

instance (store : MemoryStore) : Decidable store.WF := by
  unfold MemoryStore.WF
  infer_instance

/-! ## Association-list lemmas -/

theorem lookupA_upsert_self {α : Type} (k : String) (v : α) (l : List (String × α)) :
    lookupA k (upsert k v l) = some v := by
  induction l with
  | nil => simp [upsert, lookupA]
  | cons p rest ih =>
    by_cases h : p.1 = k
    · simp [upsert, h, lookupA]
    · simpa [upsert, h, lookupA] using ih

theorem lookupA_upsert_ne {α : Type} (k k' : String) (v : α) (l : List (String × α))
    (h : k' ≠ k) : lookupA k' (upsert k v l) = lookupA k' l := by
  induction l with
  | nil => simp [upsert, lookupA, Ne.symm h]
  | cons p rest ih =>
    by_cases hk : p.1 = k
    · subst hk
      simp only [upsert, if_pos rfl, lookupA]
      rw [if_neg (Ne.symm h), if_neg (Ne.symm h)]
    · simp only [upsert, if_neg hk, lookupA]
      by_cases hk' : p.1 = k'
      · simp [hk']
      · simp [hk', ih]

theorem lookupA_updateAt_self {α : Type} (k : String) (f : α → α) (l : List (String × α)) :
    lookupA k (updateAt k f l) = (lookupA k l).map f := by
  induction l with
  | nil => simp [updateAt, lookupA]
  | cons p rest ih =>
    by_cases h : p.1 = k
    · simp [updateAt, h, lookupA]
    · simp [updateAt, h, lookupA, ih]

theorem lookupA_updateAt_ne {α : Type} (k k' : String) (f : α → α) (l : List (String × α))
    (h : k' ≠ k) : lookupA k' (updateAt k f l) = lookupA k' l := by
  induction l with
  | nil => simp [updateAt]
  | cons p rest ih =>
    by_cases hk : p.1 = k
    · subst hk
      simp only [updateAt, if_pos rfl, lookupA]
      rw [if_neg (Ne.symm h), if_neg (Ne.symm h)]
    · simp only [updateAt, if_neg hk, lookupA]
      by_cases hk' : p.1 = k'
      · simp [hk']
      · simp [hk', ih]

theorem updateAt_map_fst {α : Type} (k : String) (f : α → α) (l : List (String × α)) :
    (updateAt k f l).map Prod.fst = l.map Prod.fst := by
  induction l with
  | nil => rfl
  | cons p rest ih =>
    by_cases h : p.1 = k
    · simp [updateAt, h]
    · simp [updateAt, h, ih]

theorem upsert_of_not_mem {α : Type} (k : String) (v : α) (l : List (String × α))
    (h : k ∉ l.map Prod.fst) : upsert k v l = l ++ [(k, v)] := by
  induction l with
  | nil => rfl
  | cons p rest ih =>
    simp only [List.map_cons, List.mem_cons, not_or] at h
    have hpk : ¬p.1 = k := fun hh => h.1 hh.symm
    simp [upsert, hpk, ih h.2]

theorem lookupA_eq_none_of_not_mem {α : Type} (k : String) (l : List (String × α))
    (h : k ∉ l.map Prod.fst) : lookupA k l = none := by
  induction l with
  | nil => rfl
  | cons p rest ih =>
    simp only [List.map_cons, List.mem_cons, not_or] at h
    have hpk : ¬p.1 = k := fun hh => h.1 hh.symm
    simp [lookupA, hpk, ih h.2]

/-! ## `add_insight` characterization -/

theorem add_insight_insights (s : MemoryStore) (i : Insight) :
    (s.add_insight i).insights = upsert i.id i s.insights := by
  by_cases hc : containsKey i.source_pathway_id s.pathways <;>
    simp [MemoryStore.add_insight, hc]

theorem add_insight_evidence (s : MemoryStore) (i : Insight) :
    (s.add_insight i).evidence = s.evidence := by
  by_cases hc : containsKey i.source_pathway_id s.pathways <;>
    simp [MemoryStore.add_insight, hc]

theorem add_insight_pathways_map_fst (s : MemoryStore) (i : Insight) :
    (s.add_insight i).pathways.map Prod.fst = s.pathways.map Prod.fst := by
  by_cases hc : containsKey i.source_pathway_id s.pathways <;>
    simp [MemoryStore.add_insight, hc, updateAt_map_fst]

theorem add_insight_lookup_pathways (s : MemoryStore) (i : Insight) (pid : String) :
    lookupA pid (s.add_insight i).pathways =
      (lookupA pid s.pathways).map (fun pw =>
        if i.source_pathway_id = pid then { pw with linked_insight_id := some i.id }
        else pw) := by
  unfold MemoryStore.add_insight
  by_cases hc : containsKey i.source_pathway_id s.pathways
  · rw [if_pos hc]
    by_cases hp : i.source_pathway_id = pid
    · subst hp
      rw [lookupA_updateAt_self]
      cases lookupA i.source_pathway_id s.pathways <;> simp
    · rw [lookupA_updateAt_ne _ _ _ _ (fun hh => hp hh.symm)]
      cases lookupA pid s.pathways <;> simp [hp]
  · rw [if_neg hc]
    by_cases hp : i.source_pathway_id = pid
    · subst hp
      have hnone : lookupA i.source_pathway_id s.pathways = none := by
        unfold containsKey at hc
        exact Option.not_isSome_iff_eq_none.mp hc
      simp [hnone]
    · cases lookupA pid s.pathways <;> simp [hp]

theorem add_insight_pathways_of_missing (s : MemoryStore) (i : Insight)
    (h : lookupA i.source_pathway_id s.pathways = none) :
    (s.add_insight i).pathways = s.pathways := by
  unfold MemoryStore.add_insight
  have hc : containsKey i.source_pathway_id s.pathways = false := by
    unfold containsKey
    rw [h]
    rfl
  simp [hc]

/-! ## Claim C3: `add_insight` stores, links when possible, warns otherwise -/

/-- C3: for every store and insight, `add_insight` stores the insight
under its id; if the source pathway is a key of the pathway mapping, its
`linked_insight_id` is set to the insight's id; otherwise no pathway is
modified, the insight is still stored, and (being a total function) no
exception is raised. -/
theorem C3_add_insight_stores_and_links (store : MemoryStore) (insight : Insight) :
    (store.add_insight insight).get_insight insight.id = some insight ∧
    (∀ pw, store.get_policy_pathway insight.source_pathway_id = some pw →
      (store.add_insight insight).get_policy_pathway insight.source_pathway_id =
        some { pw with linked_insight_id := some insight.id }) ∧
    (store.get_policy_pathway insight.source_pathway_id = none →
      (store.add_insight insight).pathways = store.pathways) := by
  refine ⟨?_, ?_, ?_⟩
  · show lookupA insight.id (store.add_insight insight).insights = some insight
    rw [add_insight_insights]
    exact lookupA_upsert_self _ _ _
  · intro pw hpw
    show lookupA insight.source_pathway_id (store.add_insight insight).pathways = _
    rw [add_insight_lookup_pathways]
    rw [show store.get_policy_pathway insight.source_pathway_id =
        lookupA insight.source_pathway_id store.pathways from rfl] at hpw
    rw [hpw]
    simp
  · intro hnone
    exact add_insight_pathways_of_missing store insight hnone

/-- Witness for C3 at a concrete store: the insight is stored and the
existing pathway gets linked; on a store without the pathway, the
pathway mapping is untouched. -/
theorem C3_add_insight_stores_and_links_witness :
    ((MemoryStore.empty.add_policy_pathway ⟨"p", ["e"], none⟩).add_insight
        ⟨"i", "lesson", "p"⟩).get_policy_pathway "p" = some ⟨"p", ["e"], some "i"⟩ ∧
    (MemoryStore.empty.add_insight ⟨"j", "lesson", "q"⟩).pathways =
      MemoryStore.empty.pathways :=
  ⟨(C3_add_insight_stores_and_links
      (MemoryStore.empty.add_policy_pathway ⟨"p", ["e"], none⟩) ⟨"i", "lesson", "p"⟩).2.1
      ⟨"p", ["e"], none⟩ (by decide),
   (C3_add_insight_stores_and_links MemoryStore.empty ⟨"j", "lesson", "q"⟩).2.2 (by decide)⟩

/-! ## Claim C10: frame property of `add_insight` -/

/-- C10: `add_insight` changes nothing except the insights entry under
`insight.id` and, at most, the link field of the single pathway stored
under `insight.source_pathway_id`: the evidence mapping, every other
insight, and every other pathway are unchanged, and the affected pathway
changes only in its `linked_insight_id` field. -/
theorem C10_add_insight_frame (store : MemoryStore) (insight : Insight) :
    (store.add_insight insight).evidence = store.evidence ∧
    (∀ k, k ≠ insight.id →
      (store.add_insight insight).get_insight k = store.get_insight k) ∧
    (∀ p, p ≠ insight.source_pathway_id →
      (store.add_insight insight).get_policy_pathway p = store.get_policy_pathway p) ∧
    (∀ pw, store.get_policy_pathway insight.source_pathway_id = some pw →
      (store.add_insight insight).get_policy_pathway insight.source_pathway_id =
        some { pw with linked_insight_id := some insight.id }) ∧
    (store.get_policy_pathway insight.source_pathway_id = none →
      (store.add_insight insight).pathways = store.pathways) := by
  refine ⟨add_insight_evidence store insight, ?_, ?_, ?_, ?_⟩
  · intro k hk
    show lookupA k (store.add_insight insight).insights = lookupA k store.insights
    rw [add_insight_insights]
    exact lookupA_upsert_ne _ _ _ _ hk
  · intro p hp
    show lookupA p (store.add_insight insight).pathways = lookupA p store.pathways
    rw [add_insight_lookup_pathways]
    have h2 : insight.source_pathway_id ≠ p := fun hh => hp hh.symm
    cases lookupA p store.pathways <;> simp [h2]
  · intro pw hpw
    show lookupA insight.source_pathway_id (store.add_insight insight).pathways = _
    rw [add_insight_lookup_pathways]
    rw [show store.get_policy_pathway insight.source_pathway_id =
        lookupA insight.source_pathway_id store.pathways from rfl] at hpw
    rw [hpw]
    simp
  · exact add_insight_pathways_of_missing store insight

/-- Witness for C10 at a concrete store holding a foreign insight, a
foreign pathway and one evidence card: all of them survive `add_insight`
unchanged while the named pathway is relinked. -/
theorem C10_add_insight_frame_witness :
    (let st : MemoryStore :=
      ⟨[("i0", ⟨"i0", "old", "p0"⟩)],
       [("p0", ⟨"p0", ["e0"], some "i0"⟩), ("p", ⟨"p", ["e"], none⟩)],
       [("e", ⟨"e", "obs", "Planner", 3⟩)]⟩
    (st.add_insight ⟨"i", "lesson", "p"⟩).evidence = st.evidence ∧
    (st.add_insight ⟨"i", "lesson", "p"⟩).get_insight "i0" = st.get_insight "i0" ∧
    (st.add_insight ⟨"i", "lesson", "p"⟩).get_policy_pathway "p0" =
      st.get_policy_pathway "p0" ∧
    (st.add_insight ⟨"i", "lesson", "p"⟩).get_policy_pathway "p" =
      some ⟨"p", ["e"], some "i"⟩) :=
  ⟨(C10_add_insight_frame _ _).1,
   (C10_add_insight_frame _ _).2.1 "i0" (by decide),
   (C10_add_insight_frame _ _).2.2.1 "p0" (by decide),
   (C10_add_insight_frame _ _).2.2.2.1 ⟨"p", ["e"], none⟩ (by decide)⟩

/-! ## Claim C4: the insight link is NOT write-once -/

/-- Counterexample to C4: on a store holding pathway `"p"`, adding
insight `"i1"` (source `"p"`) sets the link to `"i1"`, and a later
`add_insight` naming the same source pathway changes it to the
different value `"i2"` — the link field is not set at most once. -/
theorem C4_counterexample :
    (((MemoryStore.empty.add_policy_pathway ⟨"p", [], none⟩).add_insight
          ⟨"i1", "a", "p"⟩).get_policy_pathway "p").map
        (fun pw => pw.linked_insight_id) = some (some "i1") ∧
    ((((MemoryStore.empty.add_policy_pathway ⟨"p", [], none⟩).add_insight
          ⟨"i1", "a", "p"⟩).add_insight ⟨"i2", "b", "p"⟩).get_policy_pathway "p").map
        (fun pw => pw.linked_insight_id) = some (some "i2") ∧
    some (some "i1") ≠ some (some ("i2" : String)) := by
  refine ⟨by decide, by decide, by decide⟩

/-- C4 amended: the pathway's insight-link field is last-writer-wins,
not write-once — every `add_insight` whose source pathway is present
overwrites the link with the new insight's id (so it is set at most
once only in histories where at most one stored insight names the
pathway). -/
theorem C4_link_last_writer_wins (store : MemoryStore) (i1 i2 : Insight)
    (hsrc : i1.source_pathway_id = i2.source_pathway_id)
    (hpresent : (store.get_policy_pathway i2.source_pathway_id).isSome) :
    (((store.add_insight i1).add_insight i2).get_policy_pathway
        i2.source_pathway_id).map (fun pw => pw.linked_insight_id) = some (some i2.id) := by
  show (lookupA i2.source_pathway_id ((store.add_insight i1).add_insight i2).pathways).map
    (fun pw => pw.linked_insight_id) = some (some i2.id)
  rw [add_insight_lookup_pathways, add_insight_lookup_pathways]
  obtain ⟨pw, hpw⟩ := Option.isSome_iff_exists.mp hpresent
  rw [show store.get_policy_pathway i2.source_pathway_id =
      lookupA i2.source_pathway_id store.pathways from rfl] at hpw
  rw [hpw]
  simp [hsrc]

/-- Witness for the amended C4 at a concrete store: after two
`add_insight` calls naming pathway `"p"`, the link is the second id. -/
theorem C4_link_last_writer_wins_witness :
    (((MemoryStore.empty.add_policy_pathway ⟨"p", [], none⟩).add_insight
          ⟨"i1", "a", "p"⟩).add_insight ⟨"i2", "b", "p"⟩).get_policy_pathway "p" =
        some ⟨"p", [], some "i2"⟩ ∧
    ((((MemoryStore.empty.add_policy_pathway ⟨"p", [], none⟩).add_insight
          ⟨"i1", "a", "p"⟩).add_insight ⟨"i2", "b", "p"⟩).get_policy_pathway "p").map
        (fun pw => pw.linked_insight_id) = some (some "i2") :=
  ⟨by decide,
   C4_link_last_writer_wins (MemoryStore.empty.add_policy_pathway ⟨"p", [], none⟩)
     ⟨"i1", "a", "p"⟩ ⟨"i2", "b", "p"⟩ (by decide) (by decide)⟩

/-! ## Claim C8: empty trajectory short-circuits `update_memory` -/

/-- C8: for every outcome sign and every HDPM instance (and every
choice of the ambient parameters — clock, fresh ids, random state,
strategy), `update_memory` on an empty trajectory returns exactly
`(None, None, [])` and leaves both stores unchanged; being a total
function, it raises no exception. -/
theorem C8_update_memory_empty_trajectory (llm_simulation_mode : String) (now : Int)
    (freshPathwayId freshInsightId : String) (rng : Nat) (result : Int)
    (hdpm_instance : HDPM) :
    update_memory llm_simulation_mode now freshPathwayId freshInsightId rng [] result
      hdpm_instance = ((none, none, []), hdpm_instance) := rfl

/-! ## Claim C9: distillation is deterministic per strategy -/

/-- C9: for a fixed pathway, store and outcome sign, the keyword
strategy produces identical content across any two states of the random
source (it never consults it), and the random-pick strategy produces
identical content whenever the random source is seeded identically. -/
theorem C9_distill_deterministic (freshInsightId : String)
    (policy_pathway : PolicyPathway) (memory_store : MemoryStore) (result : Int) :
    (∀ rng1 rng2 : Nat,
      (distill "simple_keywords" freshInsightId policy_pathway memory_store result
          rng1).content =
        (distill "simple_keywords" freshInsightId policy_pathway memory_store result
          rng2).content) ∧
    (∀ rng1 rng2 : Nat, rng1 = rng2 →
      (distill "random_choice" freshInsightId policy_pathway memory_store result
          rng1).content =
        (distill "random_choice" freshInsightId policy_pathway memory_store result
          rng2).content) := by
  constructor
  · intro rng1 rng2
    rfl
  · intro rng1 rng2 h
    rw [h]

/-- Witness for C9 at a concrete pathway, store and seed. -/
theorem C9_distill_deterministic_witness :
    (distill "simple_keywords" "i" ⟨"p", [], none⟩ MemoryStore.empty 1 0).content =
      (distill "simple_keywords" "i" ⟨"p", [], none⟩ MemoryStore.empty 1 7).content ∧
    (distill "random_choice" "i" ⟨"p", [], none⟩ MemoryStore.empty 1 5).content =
      (distill "random_choice" "i" ⟨"p", [], none⟩ MemoryStore.empty 1 5).content :=
  ⟨(C9_distill_deterministic "i" ⟨"p", [], none⟩ MemoryStore.empty 1).1 0 7,
   (C9_distill_deterministic "i" ⟨"p", [], none⟩ MemoryStore.empty 1).2 5 5 rfl⟩

/-! ## Claim C2: retrieval returns aligned `(insights, pathways)` lists -/

theorem resolveTop_length_eq (store : MemoryStore) (l : List Insight) :
    (resolveTop store l).1.length = (resolveTop store l).2.length := by
  induction l with
  | nil => rfl
  | cons i rest ih =>
    cases h : store.get_policy_pathway i.source_pathway_id <;>
      simp [resolveTop, h, ih]

theorem resolveTop_fst_filter (store : MemoryStore) (l : List Insight) :
    (resolveTop store l).1 =
      l.filter (fun ins => (store.get_policy_pathway ins.source_pathway_id).isSome) := by
  induction l with
  | nil => rfl
  | cons i rest ih =>
    cases h : store.get_policy_pathway i.source_pathway_id <;>
      simp [resolveTop, h, List.filter_cons, ih]

theorem resolveTop_align (store : MemoryStore) (l : List Insight) (idx : Nat) :
    (resolveTop store l).2.get? idx =
      ((resolveTop store l).1.get? idx).bind
        (fun ins => store.get_policy_pathway ins.source_pathway_id) := by
  induction l generalizing idx with
  | nil => simp [resolveTop]
  | cons i rest ih =>
    cases h : store.get_policy_pathway i.source_pathway_id with
    | none => simpa [resolveTop, h] using ih idx
    | some pw =>
      cases idx with
      | zero => simp [resolveTop, h]
      | succ n => simpa [resolveTop, h] using ih n

theorem topInsightsOf_length_le (query : String) (insights : List (String × Insight))
    (topK : Int) : (topInsightsOf query insights topK).length ≤ topK.toNat := by
  unfold topInsightsOf
  simp only [List.length_map, List.length_take]
  exact min_le_left _ _

/-- C2: for every query, store state and integer `top_k`, the two
returned lists have equal length with at most `top_k` elements, are
index-aligned (`pathways[i]` is the pathway stored under
`insights[i].source_pathway_id`), insights whose source pathway is
absent are dropped, and `top_k <= 0` yields empty results. -/
theorem C2_retrieval_aligned (query : String) (store : MemoryStore) (topK : Int) :
    (retrieveRelevantItems query store topK).1.length =
      (retrieveRelevantItems query store topK).2.length ∧
    (retrieveRelevantItems query store topK).1.length ≤ topK.toNat ∧
    (∀ idx : Nat,
      (retrieveRelevantItems query store topK).2.get? idx =
        ((retrieveRelevantItems query store topK).1.get? idx).bind
          (fun ins => store.get_policy_pathway ins.source_pathway_id)) ∧
    (topK ≤ 0 → retrieveRelevantItems query store topK = ([], [])) ∧
    (0 < topK →
      (retrieveRelevantItems query store topK).1 =
        (topInsightsOf query store.insights topK).filter
          (fun ins => (store.get_policy_pathway ins.source_pathway_id).isSome)) := by
  by_cases h : topK ≤ 0
  · refine ⟨?_, ?_, ?_, ?_, ?_⟩
    · simp [retrieveRelevantItems, h]
    · simp [retrieveRelevantItems, h]
    · intro idx
      simp [retrieveRelevantItems, h]
    · intro _
      simp [retrieveRelevantItems, h]
    · intro h'
      exact absurd h' (by omega)
  · have hr : retrieveRelevantItems query store topK =
        resolveTop store (topInsightsOf query store.insights topK) := by
      simp [retrieveRelevantItems, h]
    refine ⟨?_, ?_, ?_, ?_, ?_⟩
    · rw [hr]
      exact resolveTop_length_eq _ _
    · rw [hr]
      calc (resolveTop store (topInsightsOf query store.insights topK)).1.length
          ≤ (topInsightsOf query store.insights topK).length := by
            rw [resolveTop_fst_filter]
            exact List.length_filter_le _ _
        _ ≤ topK.toNat := topInsightsOf_length_le _ _ _
    · intro idx
      rw [hr]
      exact resolveTop_align _ _ _
    · intro h'
      exact absurd h' h
    · intro _
      rw [hr]
      exact resolveTop_fst_filter _ _

/-- Witness for C2 at a concrete store: `top_k = 0` yields empty
results, and with `top_k = 2` the insight whose source pathway is
missing is dropped from the first list. -/
theorem C2_retrieval_aligned_witness :
    retrieveRelevantItems "alpha"
        ⟨[("i1", ⟨"i1", "alpha beta", "p1"⟩), ("i2", ⟨"i2", "alpha", "ghost"⟩)],
         [("p1", ⟨"p1", [], none⟩)], []⟩ 0 = ([], []) ∧
    (retrieveRelevantItems "alpha"
        ⟨[("i1", ⟨"i1", "alpha beta", "p1"⟩), ("i2", ⟨"i2", "alpha", "ghost"⟩)],
         [("p1", ⟨"p1", [], none⟩)], []⟩ 2).1 =
      (topInsightsOf "alpha"
          (MemoryStore.insights
            ⟨[("i1", ⟨"i1", "alpha beta", "p1"⟩), ("i2", ⟨"i2", "alpha", "ghost"⟩)],
             [("p1", ⟨"p1", [], none⟩)], []⟩) 2).filter
        (fun ins =>
          (MemoryStore.get_policy_pathway
              ⟨[("i1", ⟨"i1", "alpha beta", "p1"⟩), ("i2", ⟨"i2", "alpha", "ghost"⟩)],
               [("p1", ⟨"p1", [], none⟩)], []⟩ ins.source_pathway_id).isSome) :=
  ⟨(C2_retrieval_aligned "alpha" _ 0).2.2.2.1 (by decide),
   (C2_retrieval_aligned "alpha" _ 2).2.2.2.2 (by decide)⟩

/-! ## Claim C5: `get_evidence_cards_for_pathway` -/

/-- C5: for every store and pathway id, the lookup returns `[]` when
the pathway is unknown; otherwise it returns exactly the cards whose
ids appear in the pathway's id list and are present in the evidence
mapping (absent ids are skipped, never causing failure), sorted
ascending by timestamp. -/
theorem C5_evidence_cards_for_pathway (store : MemoryStore) (pathway_id : String) :
    (store.get_policy_pathway pathway_id = none →
      store.get_evidence_cards_for_pathway pathway_id = []) ∧
    (∀ pw, store.get_policy_pathway pathway_id = some pw →
      (store.get_evidence_cards_for_pathway pathway_id).Perm
        (pw.evidence_card_ids.filterMap store.get_evidence_card) ∧
      List.Sorted tsLE (store.get_evidence_cards_for_pathway pathway_id)) := by
  constructor
  · intro h
    unfold MemoryStore.get_evidence_cards_for_pathway
    rw [h]
  · intro pw h
    unfold MemoryStore.get_evidence_cards_for_pathway
    rw [h]
    exact ⟨List.perm_insertionSort _ _, List.sorted_insertionSort _ _⟩

/-- Witness for C5 at a concrete store whose pathway lists its card ids
out of timestamp order and includes a dangling id. -/
theorem C5_evidence_cards_for_pathway_witness :
    ((MemoryStore.get_evidence_cards_for_pathway
        ⟨[], [("p", ⟨"p", ["e2", "e1", "missing"], none⟩)],
         [("e1", ⟨"e1", "first", "Planner", 1⟩), ("e2", ⟨"e2", "second", "Critic", 2⟩)]⟩
        "p").Perm
      (["e2", "e1", "missing"].filterMap
        (MemoryStore.get_evidence_card
          ⟨[], [("p", ⟨"p", ["e2", "e1", "missing"], none⟩)],
           [("e1", ⟨"e1", "first", "Planner", 1⟩),
            ("e2", ⟨"e2", "second", "Critic", 2⟩)]⟩)) ∧
      List.Sorted tsLE
        (MemoryStore.get_evidence_cards_for_pathway
          ⟨[], [("p", ⟨"p", ["e2", "e1", "missing"], none⟩)],
           [("e1", ⟨"e1", "first", "Planner", 1⟩),
            ("e2", ⟨"e2", "second", "Critic", 2⟩)]⟩ "p")) ∧
    MemoryStore.get_evidence_cards_for_pathway
      ⟨[], [("p", ⟨"p", ["e2", "e1", "missing"], none⟩)],
       [("e1", ⟨"e1", "first", "Planner", 1⟩), ("e2", ⟨"e2", "second", "Critic", 2⟩)]⟩
      "unknown" = [] :=
  ⟨(C5_evidence_cards_for_pathway _ "p").2 ⟨"p", ["e2", "e1", "missing"], none⟩ (by decide),
   (C5_evidence_cards_for_pathway _ "unknown").1 (by decide)⟩

/-! ## Claim C6: `atomize` counts, sentinels and synthetic timestamps -/

/-- Counterexample to C6 as stated: with the clock at `100`, the single
(last) step of a one-step trajectory with no timestamp receives the
synthetic timestamp `now - (len - i) = 99`, not `now = 100` — the
synthetic timestamp of the last step is one second before "now", not
"now". -/
theorem C6_counterexample :
    (atomize 100 [⟨none, none, none⟩]).map (fun c => c.timestamp) = [99] ∧
    (99 : Int) ≠ 100 := by
  refine ⟨by decide, by decide⟩

/-- C6 amended: `atomize` produces exactly one evidence record per
input step (a step whose timestamp string fails to parse becomes a
sentinel record with role `"SystemError"` rather than being dropped, so
the output count equals the trajectory length), and every step with a
missing or unparseable timestamp is assigned the synthetic timestamp
`now - (length - index)`: strictly increasing with step index and equal
to `now - 1` — one second before "now" — for the last step. -/
theorem C6_atomize_amended (now : Int) (trajectory : List TrajStep) :
    (atomize now trajectory).length = trajectory.length ∧
    (atomize now trajectory).Perm
      (trajectory.enum.map (fun p => atomizeStep trajectory.length now p.1 p.2)) ∧
    (∀ i step, trajectory.get? i = some step →
      step.timestamp = some TsField.unparseable →
      (atomizeStep trajectory.length now i step).agent_type = "SystemError") ∧
    (∀ i step, trajectory.get? i = some step →
      (step.timestamp = none ∨ step.timestamp = some TsField.unparseable) →
      (atomizeStep trajectory.length now i step).timestamp =
        now - ((trajectory.length : Int) - (i : Int))) ∧
    (∀ i j stepi stepj, i < j →
      trajectory.get? i = some stepi → trajectory.get? j = some stepj →
      (stepi.timestamp = none ∨ stepi.timestamp = some TsField.unparseable) →
      (stepj.timestamp = none ∨ stepj.timestamp = some TsField.unparseable) →
      (atomizeStep trajectory.length now i stepi).timestamp <
        (atomizeStep trajectory.length now j stepj).timestamp) ∧
    (∀ step, trajectory.get? (trajectory.length - 1) = some step →
      (step.timestamp = none ∨ step.timestamp = some TsField.unparseable) →
      (atomizeStep trajectory.length now (trajectory.length - 1) step).timestamp =
        now - 1) := by
  refine ⟨?_, ?_, ?_, ?_, ?_, ?_⟩
  · show (List.insertionSort tsLE _).length = _
    rw [(List.perm_insertionSort tsLE _).length_eq]
    simp [List.enum_length]
  · exact List.perm_insertionSort tsLE _
  · intro i step _ hts
    simp [atomizeStep, hts]
  · intro i step _ hts
    rcases hts with h | h <;> simp [atomizeStep, h]
  · intro i j stepi stepj hij _ _ hsi hsj
    rcases hsi with h1 | h1 <;> rcases hsj with h2 | h2 <;>
      simp [atomizeStep, h1, h2] <;> omega
  · intro step hget hts
    have hlt : trajectory.length - 1 < trajectory.length := by
      rcases List.get?_eq_some.mp hget with ⟨hh, _⟩
      exact hh
    rcases hts with h | h <;> simp [atomizeStep, h] <;> omega

/-- Witness for the amended C6 at the clock value `100` and a concrete
two-step trajectory: an unparseable first step and a timestamp-less
second step. -/
theorem C6_atomize_amended_witness :
    (atomizeStep 2 100 0 ⟨some "x", some "Planner", some TsField.unparseable⟩).agent_type =
      "SystemError" ∧
    (atomizeStep 2 100 1 ⟨none, none, none⟩).timestamp = 100 - ((2 : Int) - (1 : Int)) ∧
    (atomizeStep 2 100 0 ⟨some "x", some "Planner", some TsField.unparseable⟩).timestamp <
      (atomizeStep 2 100 1 ⟨none, none, none⟩).timestamp ∧
    (atomizeStep 2 100 1 ⟨none, none, none⟩).timestamp = 100 - 1 :=
  ⟨(C6_atomize_amended 100
      [⟨some "x", some "Planner", some TsField.unparseable⟩, ⟨none, none, none⟩]).2.2.1 0
      ⟨some "x", some "Planner", some TsField.unparseable⟩ (by decide) (by decide),
   (C6_atomize_amended 100
      [⟨some "x", some "Planner", some TsField.unparseable⟩, ⟨none, none, none⟩]).2.2.2.1 1
      ⟨none, none, none⟩ (by decide) (Or.inl (by decide)),
   (C6_atomize_amended 100
      [⟨some "x", some "Planner", some TsField.unparseable⟩, ⟨none, none, none⟩]).2.2.2.2.1 0 1
      ⟨some "x", some "Planner", some TsField.unparseable⟩ ⟨none, none, none⟩ (by decide)
      (by decide) (by decide) (Or.inr (by decide)) (Or.inl (by decide)),
   (C6_atomize_amended 100
      [⟨some "x", some "Planner", some TsField.unparseable⟩, ⟨none, none, none⟩]).2.2.2.2.2
      ⟨none, none, none⟩ (by decide) (Or.inl (by decide))⟩

/-! ## Claim C1: retrieval computes the reference algorithm -/

theorem specClean_eq_cleanChars (s : List Char) : specClean s = cleanChars s := by
  unfold specClean cleanChars
  generalize s.map Char.toLower = t
  induction t with
  | nil => rfl
  | cons c cs ih =>
    by_cases h1 : c = '-'
    · subst h1
      simp only [List.filterMap_cons, List.filter_cons, ih]
      norm_num
    · by_cases h2 : (isWordChar c || isSpaceChar c) = true
      · rw [Bool.or_eq_true] at h2
        rcases h2 with h2 | h2 <;>
          · simp [List.filterMap_cons, List.filter_cons, h1, h2]
            simpa using ih
      · have h2a : isWordChar c = false := by
          cases hw : isWordChar c
          · rfl
          · exact absurd (by simp [hw]) h2
        have h2b : isSpaceChar c = false := by
          cases hsp : isSpaceChar c
          · rfl
          · exact absurd (by simp [hsp]) h2
        simp [List.filterMap_cons, List.filter_cons, h1, h2a, h2b]
        simpa using ih

theorem overlapScore_dedup_eq_card (u v : List (List Char)) :
    overlapScore u.dedup v.dedup = (u.toFinset ∩ v.toFinset).card := by
  unfold overlapScore
  have hnd : (u.dedup.filter (fun t => decide (t ∈ v.dedup))).Nodup :=
    (List.nodup_dedup u).filter _
  rw [← List.toFinset_card_of_nodup hnd]
  congr 1
  ext x
  simp [List.mem_toFinset, List.mem_filter, List.mem_dedup, Finset.mem_inter,
    decide_eq_true_eq]

theorem overlapScore_termSet_eq (a b : List Char) :
    overlapScore (termSet a) (termSet b) =
      (specTermFinset a ∩ specTermFinset b).card := by
  unfold specTermFinset termSet
  rw [specClean_eq_cleanChars, specClean_eq_cleanChars]
  exact overlapScore_dedup_eq_card _ _

theorem scored_lists_eq (query : String) (insights : List (String × Insight)) :
    insights.filterMap (fun p =>
      if overlapScore (termSet query.data) (termSet p.2.content.data) > 0 then
        some (overlapScore (termSet query.data) (termSet p.2.content.data), p.2)
      else none) =
    insights.filterMap (fun p =>
      if (specTermFinset query.data ∩ specTermFinset p.2.content.data).card > 0 then
        some ((specTermFinset query.data ∩ specTermFinset p.2.content.data).card, p.2)
      else none) := by
  have hfun : (fun p : String × Insight =>
      if overlapScore (termSet query.data) (termSet p.2.content.data) > 0 then
        some (overlapScore (termSet query.data) (termSet p.2.content.data), p.2)
      else none) =
      (fun p : String × Insight =>
        if (specTermFinset query.data ∩ specTermFinset p.2.content.data).card > 0 then
          some ((specTermFinset query.data ∩ specTermFinset p.2.content.data).card, p.2)
        else none) := by
    funext p
    rw [overlapScore_termSet_eq]
  rw [hfun]

/-- C1: for every query string and every `top_k > 0`, the
insight-selection phase of per-store retrieval computes exactly the
reference algorithm of the specification — normalize both texts
(lowercase, strip to word characters / whitespace / hyphens, hyphens as
separators, split to a term set), score each insight by the size of the
intersection of term sets, discard zero scores, stable-sort by score
descending (ties keeping insight iteration order), and take the first
`top_k`. -/
theorem C1_retrieval_matches_reference (query : String)
    (insights : List (String × Insight)) (topK : Int) (_h : 0 < topK) :
    topInsightsOf query insights topK = specTopInsights query insights topK := by
  show ((List.insertionSort scoreGE (insights.filterMap (fun p =>
      if overlapScore (termSet query.data) (termSet p.2.content.data) > 0 then
        some (overlapScore (termSet query.data) (termSet p.2.content.data), p.2)
      else none))).take topK.toNat).map (fun sp => sp.2) =
    ((List.insertionSort scoreGE (insights.filterMap (fun p =>
      if (specTermFinset query.data ∩ specTermFinset p.2.content.data).card > 0 then
        some ((specTermFinset query.data ∩ specTermFinset p.2.content.data).card, p.2)
      else none))).take topK.toNat).map (fun sp => sp.2)
  rw [scored_lists_eq]

/-- Witness for C1: the spec's own scenario query against a one-insight
store. -/
theorem C1_retrieval_matches_reference_witness :
    (0 : Int) < 1 ∧
    topInsightsOf "protein Alpha SuperFold"
        [("i", ⟨"i", "SuperFold with temp 300 for protein Alpha", "p"⟩)] 1 =
      specTopInsights "protein Alpha SuperFold"
        [("i", ⟨"i", "SuperFold with temp 300 for protein Alpha", "p"⟩)] 1 :=
  ⟨by decide,
   C1_retrieval_matches_reference "protein Alpha SuperFold"
     [("i", ⟨"i", "SuperFold with temp 300 for protein Alpha", "p"⟩)] 1 (by decide)⟩

/-! ## Claim C7: serialization round trip -/

theorem foldl_upsert_pairs {α : Type} (key : α → String) :
    ∀ (l acc : List (String × α)),
      (∀ p ∈ l, p.1 = key p.2) → (l.map Prod.fst).Nodup →
      (∀ p ∈ l, p.1 ∉ acc.map Prod.fst) →
      l.foldl (fun a p => upsert (key p.2) p.2 a) acc = acc ++ l
  | [], acc, _, _, _ => by simp
  | p :: rest, acc, hkey, hnodup, hdisj => by
    have hp1 : p.1 = key p.2 := hkey p (List.mem_cons_self _ _)
    have hnot : p.1 ∉ acc.map Prod.fst := hdisj p (List.mem_cons_self _ _)
    have hup : upsert (key p.2) p.2 acc = acc ++ [p] := by
      rw [← hp1, upsert_of_not_mem _ _ _ hnot]
    simp only [List.foldl_cons]
    rw [hup]
    simp only [List.map_cons, List.nodup_cons] at hnodup
    have hdisj' : ∀ q ∈ rest, q.1 ∉ (acc ++ [p]).map Prod.fst := by
      intro q hq hmem
      rw [List.map_append] at hmem
      rcases List.mem_append.mp hmem with hin | hin
      · exact hdisj q (List.mem_cons_of_mem _ hq) hin
      · have hqp : q.1 = p.1 := by simpa using hin
        exact hnodup.1 (hqp ▸ List.mem_map_of_mem Prod.fst hq)
    rw [foldl_upsert_pairs key rest (acc ++ [p])
      (fun q hq => hkey q (List.mem_cons_of_mem _ hq)) hnodup.2 hdisj']
    simp

theorem foldl_add_evidence_card_proj (l : List (String × AtomicEvidenceCard))
    (s : MemoryStore) :
    (l.foldl (fun st p => st.add_evidence_card p.2) s).insights = s.insights ∧
    (l.foldl (fun st p => st.add_evidence_card p.2) s).pathways = s.pathways ∧
    (l.foldl (fun st p => st.add_evidence_card p.2) s).evidence =
      l.foldl (fun a p => upsert p.2.id p.2 a) s.evidence := by
  induction l generalizing s with
  | nil => exact ⟨rfl, rfl, rfl⟩
  | cons p rest ih =>
    simp only [List.foldl_cons]
    exact ih _

theorem foldl_add_policy_pathway_proj (l : List (String × PolicyPathway))
    (s : MemoryStore) :
    (l.foldl (fun st p => st.add_policy_pathway p.2) s).insights = s.insights ∧
    (l.foldl (fun st p => st.add_policy_pathway p.2) s).evidence = s.evidence ∧
    (l.foldl (fun st p => st.add_policy_pathway p.2) s).pathways =
      l.foldl (fun a p => upsert p.2.id p.2 a) s.pathways := by
  induction l generalizing s with
  | nil => exact ⟨rfl, rfl, rfl⟩
  | cons p rest ih =>
    simp only [List.foldl_cons]
    exact ih _

theorem foldl_add_insight_proj (l : List (String × Insight)) (s : MemoryStore) :
    (l.foldl (fun st p => st.add_insight p.2) s).evidence = s.evidence ∧
    (l.foldl (fun st p => st.add_insight p.2) s).insights =
      l.foldl (fun a p => upsert p.2.id p.2 a) s.insights ∧
    (l.foldl (fun st p => st.add_insight p.2) s).pathways.map Prod.fst =
      s.pathways.map Prod.fst := by
  induction l generalizing s with
  | nil => exact ⟨rfl, rfl, rfl⟩
  | cons p rest ih =>
    simp only [List.foldl_cons]
    refine ⟨?_, ?_, ?_⟩
    · rw [(ih _).1, add_insight_evidence]
    · rw [(ih _).2.1, add_insight_insights]
    · rw [(ih _).2.2, add_insight_pathways_map_fst]

theorem lookupA_foldl_add_insight (pid : String) :
    ∀ (l : List (String × Insight)) (s : MemoryStore),
      lookupA pid ((l.foldl (fun st p => st.add_insight p.2) s).pathways) =
        (lookupA pid s.pathways).map (fun pw =>
          match lastRefId pid l with
          | some iid => { pw with linked_insight_id := some iid }
          | none => pw)
  | [], s => by
    simp only [List.foldl_nil]
    cases hlk : lookupA pid s.pathways <;> simp [hlk, lastRefId]
  | p :: rest, s => by
    simp only [List.foldl_cons]
    rw [lookupA_foldl_add_insight pid rest (s.add_insight p.2),
      add_insight_lookup_pathways, Option.map_map]
    cases hlk : lookupA pid s.pathways with
    | none => simp
    | some pw =>
      simp only [Option.map_some', Function.comp]
      congr 1
      cases hlr : lastRefId pid rest with
      | some x =>
        simp only [lastRefId, hlr]
        by_cases hc : p.2.source_pathway_id = pid <;> simp [hc]
      | none =>
        simp only [lastRefId, hlr]
        by_cases hc : p.2.source_pathway_id = pid <;> simp [hc]

/-- Counterexample to C7 as stated: a store reachable by three
`add_insight` calls — `"a"` then `"b"` then `"a"` again, all naming
pathway `"p"` — ends with link `"a"` (the last call), but the replayed
deserialization iterates insights in dict insertion order `["a", "b"]`,
so the reconstructed store ends with link `"b"`: the round trip does
not reproduce the insight-to-pathway links. -/
theorem C7_counterexample :
    ((((((MemoryStore.empty.add_policy_pathway ⟨"p", [], none⟩).add_insight
            ⟨"a", "x", "p"⟩).add_insight ⟨"b", "y", "p"⟩).add_insight
            ⟨"a", "x", "p"⟩)).get_policy_pathway "p").map
        (fun pw => pw.linked_insight_id) = some (some "a") ∧
    ((roundTrip ((((MemoryStore.empty.add_policy_pathway ⟨"p", [], none⟩).add_insight
            ⟨"a", "x", "p"⟩).add_insight ⟨"b", "y", "p"⟩).add_insight
            ⟨"a", "x", "p"⟩)).get_policy_pathway "p").map
        (fun pw => pw.linked_insight_id) = some (some "b") ∧
    some (some "a") ≠ some (some ("b" : String)) := by
  refine ⟨by decide, by decide, by decide⟩

/-- C7 amended: for every well-keyed store (every dict entry stored
under its entity's id, keys distinct — true of all reachable stores),
the round trip `from_dict(to_dict(store))` reproduces the evidence and
insight dicts exactly and the same pathway id set, replaying insertion
in the order evidence → pathways → insights; each pathway's link
becomes the id of the last stored insight (in iteration order) whose
source is that pathway — its original link if no stored insight
references it — so links are preserved exactly when the original links
already have that form (in particular whenever no insight id was ever
re-upserted), but not in general. -/
theorem C7_roundtrip_amended (store : MemoryStore) (hwf : store.WF) :
    (roundTrip store).evidence = store.evidence ∧
    (roundTrip store).insights = store.insights ∧
    (roundTrip store).pathways.map Prod.fst = store.pathways.map Prod.fst ∧
    (∀ pid pw, lookupA pid store.pathways = some pw →
      lookupA pid (roundTrip store).pathways =
        some (match lastRefId pid store.insights with
          | some iid => { pw with linked_insight_id := some iid }
          | none => pw)) ∧
    (∀ pid pw, lookupA pid store.pathways = some pw →
      (match lastRefId pid store.insights with
        | some iid => pw.linked_insight_id = some iid
        | none => True) →
      lookupA pid (roundTrip store).pathways = some pw) := by
  obtain ⟨⟨hek, hen⟩, ⟨hpk, hpn⟩, ⟨hik, hin⟩⟩ := hwf
  have hF : roundTrip store =
      store.insights.foldl (fun st p => st.add_insight p.2)
        (store.pathways.foldl (fun st p => st.add_policy_pathway p.2)
          (store.evidence.foldl (fun st p => st.add_evidence_card p.2)
            MemoryStore.empty)) := rfl
  have hs1 := foldl_add_evidence_card_proj store.evidence MemoryStore.empty
  have hs2 := foldl_add_policy_pathway_proj store.pathways
    (store.evidence.foldl (fun st p => st.add_evidence_card p.2) MemoryStore.empty)
  have hs3 := foldl_add_insight_proj store.insights
    (store.pathways.foldl (fun st p => st.add_policy_pathway p.2)
      (store.evidence.foldl (fun st p => st.add_evidence_card p.2) MemoryStore.empty))
  have hev : (store.evidence.foldl (fun st p => st.add_evidence_card p.2)
      MemoryStore.empty).evidence = store.evidence := by
    rw [hs1.2.2]
    have := foldl_upsert_pairs (fun c : AtomicEvidenceCard => c.id) store.evidence []
      hek hen (by intro q _ hq; simp at hq)
    simpa using this
  have hpwlist : (store.pathways.foldl (fun st p => st.add_policy_pathway p.2)
      (store.evidence.foldl (fun st p => st.add_evidence_card p.2)
        MemoryStore.empty)).pathways = store.pathways := by
    rw [hs2.2.2, hs1.2.1]
    have := foldl_upsert_pairs (fun pw : PolicyPathway => pw.id) store.pathways []
      hpk hpn (by intro q _ hq; simp at hq)
    simpa [MemoryStore.empty] using this
  have hlook : ∀ pid, lookupA pid (roundTrip store).pathways =
      (lookupA pid store.pathways).map (fun pw =>
        match lastRefId pid store.insights with
        | some iid => { pw with linked_insight_id := some iid }
        | none => pw) := by
    intro pid
    rw [hF, lookupA_foldl_add_insight, hpwlist]
  refine ⟨?_, ?_, ?_, ?_, ?_⟩
  · rw [hF, hs3.1, hs2.2.1, hev]
  · rw [hF, hs3.2.1, hs2.1, hs1.1]
    have := foldl_upsert_pairs (fun i : Insight => i.id) store.insights []
      hik hin (by intro q _ hq; simp at hq)
    simpa [MemoryStore.empty] using this
  · rw [hF, hs3.2.2, hpwlist]
  · intro pid pw hpw
    rw [hlook, hpw]
    rfl
  · intro pid pw hpw hcons
    rw [hlook, hpw]
    simp only [Option.map_some']
    cases hlr : lastRefId pid store.insights with
    | none => simp [hlr]
    | some iid =>
      rw [hlr] at hcons
      simp only [hlr]
      rw [← hcons]

/-- Witness for the amended C7: a concrete well-keyed, link-consistent
store round-trips to the same pathway record. -/
theorem C7_roundtrip_amended_witness :
    lookupA "p"
        (roundTrip ⟨[("i", ⟨"i", "lesson", "p"⟩)], [("p", ⟨"p", ["e"], some "i"⟩)],
          [("e", ⟨"e", "obs", "Planner", 1⟩)]⟩).pathways = some ⟨"p", ["e"], some "i"⟩ ∧
    (roundTrip ⟨[("i", ⟨"i", "lesson", "p"⟩)], [("p", ⟨"p", ["e"], some "i"⟩)],
      [("e", ⟨"e", "obs", "Planner", 1⟩)]⟩).insights =
      [("i", ⟨"i", "lesson", "p"⟩)] :=
  ⟨(C7_roundtrip_amended
      ⟨[("i", ⟨"i", "lesson", "p"⟩)], [("p", ⟨"p", ["e"], some "i"⟩)],
       [("e", ⟨"e", "obs", "Planner", 1⟩)]⟩ (by decide)).2.2.2.2 "p"
      ⟨"p", ["e"], some "i"⟩ (by decide) rfl,
   (C7_roundtrip_amended
      ⟨[("i", ⟨"i", "lesson", "p"⟩)], [("p", ⟨"p", ["e"], some "i"⟩)],
       [("e", ⟨"e", "obs", "Planner", 1⟩)]⟩ (by decide)).2.1⟩
